import Mathlib

/-!
Verification of the pyxet core data-movement orchestrator
(python/pyxet/pyxet/core.py), as a shallow embedding.

Python strings are modelled as lists of characters.  Backend handles
are modelled by their protocol tag; every backend call an operation
issues is recorded as an event in a trace, and the outcome of each
external backend call is supplied by an environment record, so that
control flow (which calls are made, in which order, and what is
reported) is reproduced from the source.
-/

namespace Pyxet

/-- Characters of a python string. -/
abbrev Str : Type := List Char

/-- Convert a Lean string literal to the character-list model. -/
def str (s : String) : Str := s.data

/-- python s.split(c) for a single-character separator c. -/
def splitOnChar (c : Char) : Str → List Str
  | [] => [[]]
  | x :: xs =>
    match splitOnChar c xs with
    | [] => [[]]
    | h :: t => if x = c then [] :: h :: t else (x :: h) :: t

/-- python s.split(sep) for a three-character separator a b c
(used for the backend separator "://" ). -/
def splitOnSep3 (a b c : Char) : Str → List Str
  | x :: y :: z :: rest =>
    if x = a ∧ y = b ∧ z = c then [] :: splitOnSep3 a b c rest
    else
      match splitOnSep3 a b c (y :: z :: rest) with
      | [] => [[x]]
      | h :: t => (x :: h) :: t
  | l => [l]

/-- python s.rstrip(c). -/
def rstripChar (c : Char) (s : Str) : Str :=
  (List.dropWhile (· = c) s.reverse).reverse

/-- python s.lstrip(c). -/
def lstripChar (c : Char) (s : Str) : Str := List.dropWhile (· = c) s

/-- python "/".join(p.split("/")[:-1]), the parent directory of a path. -/
def parentJoin (p : Str) : Str :=
  List.intercalate (str "/") (splitOnChar '/' p).dropLast

/-- python p.split("/")[-1], the final path segment. -/
def lastSegment (p : Str) : Str := (splitOnChar '/' p).getLastD []

/-- The error message raised by core._ltrim_match. -/
def pathMismatch (s m : Str) : Str :=
  str "Path " ++ s ++ str " not in directory " ++ m

/-- core._ltrim_match: trims the string m from the left of s, raising a
ValueError when s is shorter than m or does not start with m. -/
def ltrim_match (s m : Str) : Except Str Str :=
  if s.length < m.length then .error (pathMismatch s m)
  else if s.take m.length ≠ m then .error (pathMismatch s m)
  else .ok (s.drop m.length)

/-- A resolved backend handle together with the backend-relative path:
the handle is identified by its protocol tag. -/
structure Resolved where
  protocol : Str
  path : Str
deriving DecidableEq

/-- core._get_fs_and_path: resolve a URI into a backend handle and a
path.  The first component collects the messages printed to stderr;
abspath stands for os.path.abspath applied to bare local paths.  A URI
without the backend separator resolves to the local backend; otherwise
the URI is split on the separator, a diagnostic is printed when the
split does not have exactly two parts, and the handle is built from the
first part with the second part as the path (any further parts are
dropped). -/
def get_fs_and_path (abspath : Str → Str) (uri : Str) : List Str × Resolved :=
  let parts := splitOnSep3 ':' '/' '/' uri
  if parts.length = 1 then
    ([], ⟨str "file", abspath uri⟩)
  else
    let warn := if parts.length ≠ 2 then [str "Invalid URL: " ++ uri] else []
    (warn, ⟨parts.headD [], (parts.drop 1).headD []⟩)

/-! ## Single-item transfer (core._single_file_copy) -/

/-- Events a single-item transfer can issue against the two backends,
or print to the console. -/
inductive SEv
  | printed (msg : Str)
  | cpFile (src dst : Str)
  | infoQuery (path : Str)
  | dedupHints (path : Str)
  | openRead (path : Str)
  | openWrite (path : Str)
  | streamCopy
  | failReport (proto src err : Str)
deriving DecidableEq

instance {ε α : Type} [DecidableEq ε] [DecidableEq α] :
    DecidableEq (Except ε α) := fun x y =>
  match x, y with
  | .ok a, .ok b =>
    match decEq a b with
    | isTrue h => isTrue (h ▸ rfl)
    | isFalse h => isFalse (fun he => h (Except.ok.inj he))
  | .error a, .error b =>
    match decEq a b with
    | isTrue h => isTrue (h ▸ rfl)
    | isFalse h => isFalse (fun he => h (Except.error.inj he))
  | .ok _, .error _ => isFalse (fun he => Except.noConfusion he)
  | .error _, .ok _ => isFalse (fun he => Except.noConfusion he)

/-- Outcomes of the external backend calls a single-item transfer can
make: each field is the result the backend would return for that call
(ok, or an exception carrying a message). -/
structure SfcEnv where
  infoResult : Except Str (Option Nat)
  hintsResult : Except Str Unit
  openReadResult : Except Str Unit
  openWriteResult : Except Str Unit
  streamResult : Except Str Unit
  cpFileResult : Except Str Unit
deriving DecidableEq

/-- The open-read, open-write and chunked stream-copy phase of the
try block of core._single_file_copy. -/
def streamPhase (srcPath destPath : Str) (env : SfcEnv) :
    List SEv × Except Str Unit :=
  match env.openReadResult with
  | .error e => ([SEv.openRead srcPath], .error e)
  | .ok _ =>
    match env.openWriteResult with
    | .error e => ([SEv.openRead srcPath, SEv.openWrite destPath], .error e)
    | .ok _ =>
      match env.streamResult with
      | .error e =>
        ([SEv.openRead srcPath, SEv.openWrite destPath, SEv.streamCopy],
         .error e)
      | .ok _ =>
        ([SEv.openRead srcPath, SEv.openWrite destPath, SEv.streamCopy],
         .ok ())

/-- The try block of core._single_file_copy: when the destination is the
xet backend, resolve the size hint (querying the source when none was
given) and, when the resolved size is at least 50000000, call the
destination's add_deduplication_hints; then open source and destination
and stream chunks.  Any phase can raise, aborting the following
phases. -/
def sfcTry (destProto srcPath destPath : Str) (sizeHint : Option Nat)
    (env : SfcEnv) : List SEv × Except Str Unit :=
  match (if destProto = str "xet" then
           match sizeHint with
           | some s => (([] : List SEv), Except.ok (some s))
           | none => ([SEv.infoQuery srcPath], env.infoResult)
         else ([], Except.ok none)) with
  | (evs1, .error e) => (evs1, .error e)
  | (evs1, .ok sz) =>
    match (if destProto = str "xet" then
             match sz with
             | some n =>
               if 50000000 ≤ n then
                 ([SEv.dedupHints destPath], env.hintsResult)
               else (([] : List SEv), Except.ok ())
             | none => ([], Except.ok ())
           else ([], Except.ok ())) with
    | (evs2, .error e) => (evs1 ++ evs2, .error e)
    | (evs2, .ok _) =>
      ((evs1 ++ evs2) ++ (streamPhase srcPath destPath env).1,
       (streamPhase srcPath destPath env).2)

/-- core._single_file_copy: skip the protected .gitattributes marker;
delegate xet-to-xet copies to the backend's native cp_file; otherwise
run the try block and catch any exception it raises, reporting the
failed source path instead of propagating. -/
def single_file_copy (srcProto destProto srcPath destPath : Str)
    (sizeHint : Option Nat) (env : SfcEnv) : List SEv × Except Str Unit :=
  if lastSegment destPath = str ".gitattributes" then
    ([SEv.printed (str "Skipping .gitattributes as that is required for Xet Magic")],
     .ok ())
  else
    if srcProto = str "xet" ∧ destProto = str "xet" then
      ([SEv.printed (str "Copying " ++ srcPath ++ str " to " ++ destPath ++ str "..."),
        SEv.cpFile srcPath destPath],
       env.cpFileResult)
    else
      match sfcTry destProto srcPath destPath sizeHint env with
      | (evs, .ok _) =>
        (SEv.printed (str "Copying " ++ srcPath ++ str " to " ++ destPath ++ str "...")
           :: evs, .ok ())
      | (evs, .error e) =>
        (SEv.printed (str "Copying " ++ srcPath ++ str " to " ++ destPath ++ str "...")
           :: evs ++ [SEv.failReport srcProto srcPath e], .ok ())

/-- The size the transfer acts on: the explicit hint when given, else
the size the source backend reports (none when that query raises or
reports no size). -/
def effectiveSize (sizeHint : Option Nat) (env : SfcEnv) : Option Nat :=
  match sizeHint with
  | some s => some s
  | none =>
    match env.infoResult with
    | .ok o => o
    | .error _ => none

/-- A work item of a batch of single-item transfers. -/
structure SfcItem where
  srcProto : Str
  destProto : Str
  srcPath : Str
  destPath : Str
  sizeHint : Option Nat
  env : SfcEnv

/-- Dispatching a batch of single-item transfers (the futures a tree or
glob walk submits). -/
def runBatch (items : List SfcItem) : List (List SEv × Except Str Unit) :=
  items.map (fun it =>
    single_file_copy it.srcProto it.destProto it.srcPath it.destPath
      it.sizeHint it.env)

/-- Waiting on each future in turn: the first raised exception
propagates. -/
def waitAll : List (List SEv × Except Str Unit) → Except Str Unit
  | [] => .ok ()
  | r :: rest =>
    match r.2 with
    | .error e => .error e
    | .ok _ => waitAll rest

/-- In the list l, some occurrence of a comes strictly before every
occurrence of b. -/
def Precedes {α : Type} (a b : α) (l : List α) : Prop :=
  ∀ l₁ l₂, l = l₁ ++ b :: l₂ → a ∈ l₁

/-- Whether a fallible computation succeeded. -/
def exceptIsOk {ε α : Type} : Except ε α → Bool
  | .ok _ => true
  | .error _ => false

/-- A transfer environment where every backend call succeeds and the
source reports no size. -/
def envAllOk : SfcEnv :=
  ⟨.ok none, .ok (), .ok (), .ok (), .ok (), .ok ()⟩

/-- A transfer environment where opening the source for read raises. -/
def envOpenReadFails : SfcEnv :=
  ⟨.ok (some 10), .ok (), .error (str "boom"), .ok (), .ok (), .ok ()⟩

/-! ## Tree and glob copy (core._copy) -/

/-- The type tag an enumeration entry carries. -/
inductive EType
  | file
  | directory
  | other
deriving DecidableEq

/-- Metadata of an enumerated entry: its type tag and optional size. -/
structure EInfo where
  typ : EType
  size : Option Nat
deriving DecidableEq

/-- Events a copy operation can issue. -/
inductive CEv
  | printed (msg : Str)
  | branchInfoSrc (path : Str)
  | branchInfoDest (path : Str)
  | isdirQuery (path : Str)
  | globQuery (pat : Str)
  | findQuery (path : Str)
  | makedirs (path : Str)
  | subCopy (src dest : Str)
  | transfer (src dest : Str) (sizeHint : Option Nat)
  | cpFile (src dest : Str)
deriving DecidableEq

/-- Backend answers a copy operation consumes. -/
structure CopyEnv where
  srcBranchInfo : Except Str Unit
  destBranchInfo : Except Str Unit
  srcParsePathEmpty : Bool
  destParsePathEmpty : Bool
  srcIsdir : Bool
  globEntries : List (Str × EInfo)
  findEntries : List (Str × EInfo)

/-- core._validate_xet_copy: when the source is xet its branch must
exist; when the destination is xet its branch must exist too, except
for a xet-to-xet branch-to-branch copy (both in-branch paths empty). -/
def validate_xet_copy (srcProto destProto srcPath destPath : Str)
    (env : CopyEnv) : List CEv × Except Str Unit :=
  match (if srcProto = str "xet"
         then ([CEv.branchInfoSrc srcPath], env.srcBranchInfo)
         else ([], Except.ok ())) with
  | (e1, .error e) => (e1, .error e)
  | (e1, .ok _) =>
    if destProto = str "xet" then
      if srcProto = str "xet" ∧ env.srcParsePathEmpty = true
          ∧ env.destParsePathEmpty = true then
        (e1, .ok ())
      else (e1 ++ [CEv.branchInfoDest destPath], env.destBranchInfo)
    else (e1, .ok ())

/-- Trailing-slash normalization of core._copy: any path other than the
root path has trailing slashes stripped. -/
def normSlash (p : Str) : Str := if p ≠ str "/" then rstripChar '/' p else p

/-- The destination path a walked entry maps to: the destination root
joined with the entry's relative path. -/
def destFor (dest_path relpath : Str) : Str :=
  if dest_path = str "/" then '/' :: relpath else dest_path ++ '/' :: relpath

/-- The enumeration loop of directory-mode copy: directory entries are
skipped when recursive is false; every other entry gets its destination
parent created and a single-file copy dispatched; a failing relative
path computation raises out of the loop. -/
def runFindLoop (src_path dest_path : Str) (recursive : Bool) :
    List (Str × EInfo) → List CEv × Except Str Unit
  | [] => ([], .ok ())
  | (p, info) :: rest =>
    if info.typ = EType.directory ∧ recursive = false then
      runFindLoop src_path dest_path recursive rest
    else
      match ltrim_match p src_path with
      | .error e => ([], .error e)
      | .ok r =>
        match runFindLoop src_path dest_path recursive rest with
        | (re, rr) =>
          (CEv.makedirs (parentJoin (destFor dest_path (lstripChar '/' r)))
             :: CEv.transfer p (destFor dest_path (lstripChar '/' r)) info.size
             :: re, rr)

/-- The match loop of glob-mode copy: like the find loop, but a
directory match dispatches a recursive sub-copy instead of a
single-file copy. -/
def runGlobLoop (src_root_dir dest_path : Str) (recursive : Bool) :
    List (Str × EInfo) → List CEv × Except Str Unit
  | [] => ([], .ok ())
  | (p, info) :: rest =>
    if info.typ = EType.directory ∧ recursive = false then
      runGlobLoop src_root_dir dest_path recursive rest
    else
      match ltrim_match p src_root_dir with
      | .error e => ([], .error e)
      | .ok r =>
        match runGlobLoop src_root_dir dest_path recursive rest with
        | (re, rr) =>
          (CEv.makedirs (parentJoin (destFor dest_path (lstripChar '/' r)))
             :: (if info.typ = EType.directory
                 then CEv.subCopy p (destFor dest_path (lstripChar '/' r))
                 else CEv.transfer p (destFor dest_path (lstripChar '/' r)) info.size)
             :: re, rr)

/-- Whether a copy event is part of the walk proper: an enumeration, a
directory creation, or a dispatched transfer or copy. -/
def isWalkEvent : CEv → Bool
  | CEv.globQuery _ => true
  | CEv.findQuery _ => true
  | CEv.makedirs _ => true
  | CEv.subCopy _ _ => true
  | CEv.transfer _ _ _ => true
  | CEv.cpFile _ _ => true
  | _ => false

/-- core._copy: resolve both URIs, run the pre-flight validation, strip
trailing slashes, query whether the source is a directory, then branch
into wildcard handling (with the wildcard-position check), directory
handling (native cp_file when both ends are xet, else the find loop),
or a direct single-file dispatch. -/
def copyOp (abspath : Str → Str) (source destination : Str)
    (recursive : Bool) (env : CopyEnv) : List CEv × Except Str Unit :=
  let rs := get_fs_and_path abspath source
  let rd := get_fs_and_path abspath destination
  let warns := (rs.1 ++ rd.1).map CEv.printed
  let srcProto := rs.2.protocol
  let destProto := rd.2.protocol
  match validate_xet_copy srcProto destProto rs.2.path rd.2.path env with
  | (ve, .error e) => (warns ++ ve, .error e)
  | (ve, .ok _) =>
    let src_path := normSlash rs.2.path
    let dest_path := normSlash rd.2.path
    let pre := warns ++ ve ++ [CEv.isdirQuery src_path]
    if src_path.contains '*' then
      let src_root_dir := parentJoin src_path
      if src_root_dir.contains '*' then
        (pre, .error (str "Invalid glob " ++ source ++
          str ". Wildcards can only appear in the last position"))
      else
        match runGlobLoop src_root_dir dest_path recursive env.globEntries with
        | (ge, gr) => (pre ++ CEv.globQuery src_path :: ge, gr)
    else if env.srcIsdir = true then
      if srcProto = str "xet" ∧ destProto = str "xet" then
        (pre ++ [CEv.printed (str "Copying " ++ src_path ++ str " to "
                   ++ dest_path ++ str "..."),
                 CEv.cpFile src_path dest_path], .ok ())
      else
        match runFindLoop src_path dest_path recursive env.findEntries with
        | (fe, fr) => (pre ++ CEv.findQuery src_path :: fe, fr)
    else
      (pre ++ [CEv.transfer src_path dest_path none], .ok ())

/-! ## Move (core._mv) -/

/-- Events a move operation can issue. -/
inductive MEv
  | printedErr (msg : Str)
  | printed (msg : Str)
  | startTxn (msg : Str)
  | mvCall (src dest : Str)
  | endTxn
deriving DecidableEq

/-- Backend answers a move operation consumes. -/
structure MvEnv where
  startResult : Except Str Unit
  mvResult : Except Str Unit
  endResult : Except Str Unit
deriving DecidableEq

/-- The cross-protocol warning core._mv prints.  The braces are literal
characters in the output because the source's format string lacks the
f prefix. -/
def mvCrossMsg : Str :=
  str "Unable to move between different protocols \x7bsrc_fs.protocol\x7d, \x7bdest_fs.protocol\x7d\nYou may want to copy instead"

/-- The try block of core._mv: transaction begin when the destination
is xet, the backend move, transaction end; the first exception aborts
the rest of the block. -/
def mvTryBlock (destProto message srcPath destPath : Str) (env : MvEnv) :
    List MEv × Except Str Unit :=
  match (if destProto = str "xet" then ([MEv.startTxn message], env.startResult)
         else ([], Except.ok ())) with
  | (e1, .error e) => (e1, .error e)
  | (e1, .ok _) =>
    match env.mvResult with
    | .error e => (e1 ++ [MEv.mvCall srcPath destPath], .error e)
    | .ok _ =>
      match (if destProto = str "xet" then ([MEv.endTxn], env.endResult)
             else ([], Except.ok ())) with
      | (e2, .error e) => (e1 ++ [MEv.mvCall srcPath destPath] ++ e2, .error e)
      | (e2, .ok _) => (e1 ++ [MEv.mvCall srcPath destPath] ++ e2, .ok ())

/-- core._mv: derive the default message, resolve both URIs, print the
cross-protocol warning to stderr when the protocols differ (the code
then continues), then run the transactional move, catching and printing
any exception. -/
def mvOp (abspath : Str → Str) (source target : Str) (recursive : Bool)
    (message : Str) (env : MvEnv) : List MEv :=
  let message := if message = [] then
      (if recursive = true then
         str "move " ++ source ++ str " to " ++ target ++ str " recursively"
       else str "move " ++ source ++ str " to " ++ target)
    else message
  let rs := get_fs_and_path abspath source
  let rd := get_fs_and_path abspath target
  let warn0 := (rs.1 ++ rd.1).map MEv.printedErr
  let warn := if rs.2.protocol ≠ rd.2.protocol then [MEv.printedErr mvCrossMsg]
    else []
  match mvTryBlock rd.2.protocol message rs.2.path rd.2.path env with
  | (te, .error e) => warn0 ++ warn ++ te ++ [MEv.printed e]
  | (te, .ok _) => warn0 ++ warn ++ te

/-! ## Delete (core._rm) -/

/-- The branch and in-branch path parse_url extracts from a xet path. -/
structure ParsedUrl where
  branch : Str
  path : Str

/-- Events a delete operation can issue. -/
inductive RmEv
  | printedErr (msg : Str)
  | printed (msg : Str)
  | startTxn (msg : Str)
  | rmCall (path : Str)
  | endTxn
deriving DecidableEq

/-- Backend answers a delete operation consumes; parse models
parse_url against the handle's domain. -/
structure RmEnv where
  parse : Str → ParsedUrl
  rmResult : Str → Except Str Unit
  startResult : Except Str Unit
  endResult : Except Str Unit

/-- The branch-root test of core._rm: empty in-branch path and
non-empty branch. -/
def isBranchRoot (pu : ParsedUrl) : Prop :=
  pu.path.length = 0 ∧ 0 < pu.branch.length

instance (pu : ParsedUrl) : Decidable (isBranchRoot pu) :=
  inferInstanceAs (Decidable (_ ∧ _))

/-- python repr of a list of strings, as interpolated into the default
delete message. -/
def pyReprList (paths : List Str) : Str :=
  str "[" ++ List.intercalate (str ", ")
    (paths.map (fun p => Char.ofNat 39 :: p ++ [Char.ofNat 39])) ++ str "]"

/-- The branch-deletion refusal message of core._rm. -/
def rmBranchMsg : Str :=
  str "Cannot delete branches with \x27rm\x27 as this is a non-reversible operation and history will not be preserved. Use \x27xet branch del\x27"

/-- The removal loop of core._rm: remove each path in turn; the first
exception aborts the loop. -/
def rmLoop (rmr : Str → Except Str Unit) :
    List Str → List RmEv × Except Str Unit
  | [] => ([], .ok ())
  | p :: rest =>
    match rmr p with
    | .error e => ([RmEv.rmCall p], .error e)
    | .ok _ =>
      match rmLoop rmr rest with
      | (evs, r) => (RmEv.rmCall p :: evs, r)

/-- core._rm: resolve the backend from the first path; on the xet
backend, refuse as soon as any requested path parses to a branch root
(reported to stderr, nothing else happens), else bracket the removals
in one transaction; on other backends just remove.  Exceptions inside
the try are caught and printed. -/
def rmOp (abspath : Str → Str) (paths : List Str) (message : Str)
    (env : RmEnv) : List RmEv :=
  let fsr := (get_fs_and_path abspath (paths.headD [])).2
  let message := if message = [] then str "delete " ++ pyReprList paths
    else message
  if fsr.protocol = str "xet" then
    if paths.any (fun p => decide (isBranchRoot (env.parse p))) then
      [RmEv.printedErr rmBranchMsg]
    else
      match env.startResult with
      | .error e => [RmEv.startTxn message, RmEv.printed e]
      | .ok _ =>
        match rmLoop env.rmResult paths with
        | (evs, .error e) => RmEv.startTxn message :: evs ++ [RmEv.printed e]
        | (evs, .ok _) =>
          match env.endResult with
          | .error e =>
            RmEv.startTxn message :: evs ++ [RmEv.endTxn, RmEv.printed e]
          | .ok _ => RmEv.startTxn message :: evs ++ [RmEv.endTxn]
  else
    match rmLoop env.rmResult paths with
    | (evs, .error e) => evs ++ [RmEv.printed e]
    | (evs, .ok _) => evs

/-! ## Duplicate (core._duplicate) -/

/-- Events a duplicate operation can issue. -/
inductive DupEv
  | printed (msg : Str)
  | duplicateRepo (src dest : Str)
  | setRepoAttr (dest attr : Str) (value : Bool)
deriving DecidableEq

/-- Backend answers a duplicate operation consumes. -/
structure DupEnv where
  username : Str
  domain : Str
  duplicateResult : Except Str Unit
  setPrivateResult : Except Str Unit
  setPublicResult : Except Str Unit
deriving DecidableEq

/-- The destination core._duplicate uses: the one given, else a default
derived from the caller identity and the source's final segment. -/
def dupDest (source : Str) (optDest : Option Str) (username : Str) : Str :=
  match optDest with
  | some d => d
  | none => str "xet://" ++ username ++ str "/" ++ lastSegment (rstripChar '/' source)

/-- The three lines core._duplicate prints when a permission adjustment
fails and verbose is set. -/
def dupCatchPrints (e domain username repoName : Str) : List DupEv :=
  [DupEv.printed (str "An error has occurred setting repository permissions: " ++ e),
   DupEv.printed (str "Permission changes may not have been made. Please change it manually at:"),
   DupEv.printed (str "  " ++ domain ++ str "/" ++ username ++ str "/"
     ++ repoName ++ str "/settings")]

/-- core._duplicate: duplicate the repository (a failure there
propagates), then optionally adjust visibility inside a try block whose
failures are only reported: the private flag sets the private attribute
to True, the public flag sets the public attribute to False. -/
def duplicateOp (source : Str) (optDest : Option Str)
    (priv pub verbose : Bool) (env : DupEnv) :
    List DupEv × Except Str Unit :=
  let repoName := lastSegment (rstripChar '/' source)
  let dest := dupDest source optDest env.username
  let verbEv := if optDest.isNone && verbose then
      [DupEv.printed (str "Duplicating to " ++ dest)] else []
  match env.duplicateResult with
  | .error e => (verbEv ++ [DupEv.duplicateRepo source dest], .error e)
  | .ok _ =>
    let base := verbEv ++ [DupEv.duplicateRepo source dest]
    let pr1 := if verbose then
        [DupEv.printed (str "Duplicate Success. Changing permissions...")] else []
    let pr2 := if verbose then
        [DupEv.printed (str "Repo permissions set successfully")] else []
    let privPart : List DupEv × Except Str Unit :=
      if priv then
        match env.setPrivateResult with
        | .error e => (pr1 ++ [DupEv.setRepoAttr dest (str "private") true], .error e)
        | .ok _ => (pr1 ++ [DupEv.setRepoAttr dest (str "private") true] ++ pr2, .ok ())
      else ([], .ok ())
    match privPart with
    | (pe, .error e) =>
      (base ++ pe ++ (if verbose then
        dupCatchPrints e env.domain env.username repoName else []), .ok ())
    | (pe, .ok _) =>
      let pubPart : List DupEv × Except Str Unit :=
        if pub then
          match env.setPublicResult with
          | .error e => (pr1 ++ [DupEv.setRepoAttr dest (str "public") false], .error e)
          | .ok _ => (pr1 ++ [DupEv.setRepoAttr dest (str "public") false] ++ pr2, .ok ())
        else ([], .ok ())
      match pubPart with
      | (qe, .error e) =>
        (base ++ pe ++ qe ++ (if verbose then
          dupCatchPrints e env.domain env.username repoName else []), .ok ())
      | (qe, .ok _) => (base ++ pe ++ qe, .ok ())

/-- A delete environment where parsing yields a non-branch-root path
and every backend call succeeds. -/
def rmEnvOk : RmEnv :=
  ⟨fun _ => ⟨str "b", str "f"⟩, fun _ => .ok (), .ok (), .ok ()⟩

/-- A duplicate environment where every backend call succeeds. -/
def dupEnvOk : DupEnv :=
  ⟨str "alice", str "xethub.com", .ok (), .ok (), .ok ()⟩

/-- Claim C5: for all strings p and prefix, when prefix is not a literal
prefix of p (including p shorter than prefix) ltrim_match fails with the
path-mismatch error, and when it is a literal prefix it succeeds with
the suffix, whose concatenation after prefix restores p. -/
theorem c5_ltrim_match_spec (s m : Str) :
    (¬ m <+: s → ltrim_match s m = .error (pathMismatch s m)) ∧
    (m <+: s → ltrim_match s m = .ok (s.drop m.length) ∧
      m ++ s.drop m.length = s) := by
  constructor
  · intro hnp
    unfold ltrim_match
    by_cases hlt : s.length < m.length
    · rw [if_pos hlt]
    · have hne : s.take m.length ≠ m := by
        intro he
        exact hnp (List.prefix_iff_eq_take.2 he.symm)
      rw [if_neg hlt, if_pos hne]
  · intro hp
    have hle : m.length ≤ s.length := hp.length_le
    have htake : s.take m.length = m := (List.prefix_iff_eq_take.1 hp).symm
    constructor
    · unfold ltrim_match
      rw [if_neg (by omega), if_neg (not_not_intro htake)]
    · conv_rhs => rw [← List.take_append_drop m.length s]
      rw [htake]

/-- Witness for C5 at a concrete input: trimming "a/b" from
"a/b/c.txt" succeeds and concatenation restores the original. -/
theorem c5_witness :
    ltrim_match (str "a/b/c.txt") (str "a/b")
      = .ok ((str "a/b/c.txt").drop (str "a/b").length) ∧
    str "a/b" ++ (str "a/b/c.txt").drop (str "a/b").length
      = str "a/b/c.txt" :=
  (c5_ltrim_match_spec (str "a/b/c.txt") (str "a/b")).2 ⟨str "/c.txt", by decide⟩

/-- Claim C9 counterexample: on the URI "s3://a://b", which contains two
backend separators, the resolver prints the malformed-URI diagnostic but
does not abort: it returns the same resolved backend handle and path as
the well-formed URI "s3://a" would, so the operation proceeds. -/
theorem c9_counterexample :
    get_fs_and_path id (str "s3://a://b")
      = ([str "Invalid URL: s3://a://b"],
         ⟨str "s3", str "a"⟩) ∧
    (get_fs_and_path id (str "s3://a://b")).2
      = (get_fs_and_path id (str "s3://a")).2 := by
  constructor
  · decide
  · decide

/-- Claim C9 amended: for every URI whose separator split yields three
or more parts, the resolver reports the malformed-URI diagnostic, yet
resolution continues rather than aborting: it returns a handle for the
first part with the second part as the path, dropping the rest. -/
theorem c9_amended (abspath : Str → Str) (uri : Str)
    (h : 3 ≤ (splitOnSep3 ':' '/' '/' uri).length) :
    (get_fs_and_path abspath uri).1 = [str "Invalid URL: " ++ uri] ∧
    (get_fs_and_path abspath uri).2
      = ⟨(splitOnSep3 ':' '/' '/' uri).headD [],
         ((splitOnSep3 ':' '/' '/' uri).drop 1).headD []⟩ := by
  have h1 : ¬ (splitOnSep3 ':' '/' '/' uri).length = 1 := by omega
  have h2 : (splitOnSep3 ':' '/' '/' uri).length ≠ 2 := by omega
  unfold get_fs_and_path
  simp only [h1, h2, if_false, ite_false, if_true, ne_eq,
    not_false_eq_true, ite_true]
  exact ⟨trivial, trivial⟩

/-- Witness for the C9 amended theorem at the URI "s3://a://b". -/
theorem c9_amended_witness :
    (get_fs_and_path id (str "s3://a://b")).1
      = [str "Invalid URL: " ++ str "s3://a://b"] ∧
    (get_fs_and_path id (str "s3://a://b")).2
      = ⟨(splitOnSep3 ':' '/' '/' (str "s3://a://b")).headD [],
         ((splitOnSep3 ':' '/' '/' (str "s3://a://b")).drop 1).headD []⟩ :=
  c9_amended id (str "s3://a://b") (by decide)

theorem precedes_of_not_mem {α : Type} {a b : α} {l : List α} (h : b ∉ l) :
    Precedes a b l := by
  intro l₁ l₂ he
  subst he
  exact absurd (List.mem_append_right l₁ (List.mem_cons_self b l₂)) h

theorem precedes_cons {α : Type} {a b c : α} {l : List α} (hcb : c ≠ b)
    (hp : Precedes a b l) : Precedes a b (c :: l) := by
  intro l₁ l₂ he
  cases l₁ with
  | nil =>
    simp only [List.nil_append, List.cons.injEq] at he
    exact absurd he.1 hcb
  | cons x l₁' =>
    simp only [List.cons_append, List.cons.injEq] at he
    exact List.mem_cons_of_mem x (hp l₁' l₂ he.2)

theorem precedes_head {α : Type} {a b : α} {l : List α} (hab : a ≠ b) :
    Precedes a b (a :: l) := by
  intro l₁ l₂ he
  cases l₁ with
  | nil =>
    simp only [List.nil_append, List.cons.injEq] at he
    exact absurd he.1 hab
  | cons x l₁' =>
    simp only [List.cons_append, List.cons.injEq] at he
    exact he.1 ▸ List.mem_cons_self x l₁'

theorem sfc_result_ok (srcProto destProto srcPath destPath : Str)
    (sizeHint : Option Nat) (env : SfcEnv)
    (h : ¬ (srcProto = str "xet" ∧ destProto = str "xet")) :
    (single_file_copy srcProto destProto srcPath destPath sizeHint env).2
      = .ok () := by
  unfold single_file_copy
  by_cases hg : lastSegment destPath = str ".gitattributes"
  · rw [if_pos hg]
  · rw [if_neg hg, if_neg h]
    rcases hr : sfcTry destProto srcPath destPath sizeHint env with ⟨evs, r⟩
    cases r <;> rfl

/-- Claim C7: a transfer whose destination's final path segment is the
protected .gitattributes marker is a no-op: it logs the skip message,
returns without error, and the trace shows no open, write, copy or any
other backend call. -/
theorem c7_gitattributes_never_written (srcProto destProto srcPath destPath : Str)
    (sizeHint : Option Nat) (env : SfcEnv)
    (h : lastSegment destPath = str ".gitattributes") :
    single_file_copy srcProto destProto srcPath destPath sizeHint env
      = ([SEv.printed (str "Skipping .gitattributes as that is required for Xet Magic")],
         .ok ()) := by
  unfold single_file_copy
  rw [if_pos h]

/-- Witness for C7 at a concrete destination path ending in the
.gitattributes marker. -/
theorem c7_witness :
    single_file_copy (str "s3") (str "xet") (str "bucket/.gitattributes")
        (str "u/r/b/.gitattributes") none envAllOk
      = ([SEv.printed (str "Skipping .gitattributes as that is required for Xet Magic")],
         .ok ()) :=
  c7_gitattributes_never_written _ _ _ _ _ _ (by decide)

/-- Claim C4: outside the xet-to-xet fast path, any error raised during
size lookup, deduplication-hint preparation, open, read or write is
caught inside the transfer: the transfer returns without error, the
failure is reported naming the failed source path, and consequently
waiting on a whole batch of such transfers never raises, so sibling
transfers continue uninterrupted. -/
theorem c4_transfer_failures_contained (srcProto destProto srcPath destPath : Str)
    (sizeHint : Option Nat) (env : SfcEnv)
    (h : ¬ (srcProto = str "xet" ∧ destProto = str "xet")) :
    (single_file_copy srcProto destProto srcPath destPath sizeHint env).2
      = .ok () ∧
    (∀ e, (sfcTry destProto srcPath destPath sizeHint env).2 = .error e →
        lastSegment destPath ≠ str ".gitattributes" →
        SEv.failReport srcProto srcPath e
          ∈ (single_file_copy srcProto destProto srcPath destPath sizeHint env).1) ∧
    (∀ items : List SfcItem,
        (∀ it ∈ items, ¬ (it.srcProto = str "xet" ∧ it.destProto = str "xet")) →
        waitAll (runBatch items) = .ok ()) := by
  refine ⟨sfc_result_ok _ _ _ _ _ _ h, ?_, ?_⟩
  · intro e he hg
    unfold single_file_copy
    rw [if_neg hg, if_neg h]
    rcases hr : sfcTry destProto srcPath destPath sizeHint env with ⟨evs, r⟩
    rw [hr] at he
    cases r with
    | ok u => simp at he
    | error e0 =>
      simp at he
      subst he
      simp
  · intro items hall
    induction items with
    | nil => rfl
    | cons it rest ih =>
      have h1 := sfc_result_ok it.srcProto it.destProto it.srcPath
        it.destPath it.sizeHint it.env (hall it (List.mem_cons_self it rest))
      have ih' := ih (fun x hx => hall x (List.mem_cons_of_mem it hx))
      simp only [runBatch, List.map_cons] at ih' ⊢
      unfold waitAll
      rw [h1]
      exact ih'

/-- Witness for C4: with a failing source open, the transfer still
returns without error and the trace carries the failure report naming
the source path. -/
theorem c4_witness :
    (single_file_copy (str "s3") (str "xet") (str "bucket/f") (str "repo/f")
        (some 10) envOpenReadFails).2 = .ok () ∧
    SEv.failReport (str "s3") (str "bucket/f") (str "boom")
      ∈ (single_file_copy (str "s3") (str "xet") (str "bucket/f") (str "repo/f")
          (some 10) envOpenReadFails).1 := by
  refine ⟨(c4_transfer_failures_contained (str "s3") (str "xet") (str "bucket/f")
    (str "repo/f") (some 10) envOpenReadFails (by decide)).1, ?_⟩
  exact (c4_transfer_failures_contained (str "s3") (str "xet") (str "bucket/f")
    (str "repo/f") (some 10) envOpenReadFails (by decide)).2.1
    (str "boom") (by decide) (by decide)

theorem dedup_not_mem_streamPhase (srcPath destPath p : Str) (env : SfcEnv) :
    SEv.dedupHints p ∉ (streamPhase srcPath destPath env).1 := by
  rcases env with ⟨ir, hr, orr, owr, st, cp⟩
  cases orr <;> cases owr <;> cases st <;> simp [streamPhase]

theorem sfcTry_big (srcPath destPath : Str) (sizeHint : Option Nat)
    (env : SfcEnv) (n : Nat)
    (heff : effectiveSize sizeHint env = some n) (h50 : 50000000 ≤ n) :
    ∃ rest, (sfcTry (str "xet") srcPath destPath sizeHint env).1
        = SEv.dedupHints destPath :: rest ∨
      (sfcTry (str "xet") srcPath destPath sizeHint env).1
        = SEv.infoQuery srcPath :: SEv.dedupHints destPath :: rest := by
  cases sizeHint with
  | some s =>
    have hsn : s = n := by simpa [effectiveSize] using heff
    subst hsn
    cases hh : env.hintsResult with
    | error e => exact ⟨[], Or.inl (by simp [sfcTry, h50, hh])⟩
    | ok u =>
      exact ⟨(streamPhase srcPath destPath env).1,
        Or.inl (by simp [sfcTry, h50, hh])⟩
  | none =>
    cases hi : env.infoResult with
    | error e => simp [effectiveSize, hi] at heff
    | ok o =>
      have ho : o = some n := by simpa [effectiveSize, hi] using heff
      subst ho
      cases hh : env.hintsResult with
      | error e => exact ⟨[], Or.inr (by simp [sfcTry, h50, hh, hi])⟩
      | ok u =>
        exact ⟨(streamPhase srcPath destPath env).1,
          Or.inr (by simp [sfcTry, h50, hh, hi])⟩

theorem sfcTry_small (srcPath destPath : Str) (sizeHint : Option Nat)
    (env : SfcEnv) (n : Nat)
    (heff : effectiveSize sizeHint env = some n) (h50 : n < 50000000) :
    SEv.dedupHints destPath ∉ (sfcTry (str "xet") srcPath destPath sizeHint env).1 := by
  have hnle : ¬ 50000000 ≤ n := by omega
  cases sizeHint with
  | some s =>
    have hsn : s = n := by simpa [effectiveSize] using heff
    subst hsn
    simp [sfcTry, hnle, dedup_not_mem_streamPhase]
  | none =>
    cases hi : env.infoResult with
    | error e => simp [effectiveSize, hi] at heff
    | ok o =>
      have ho : o = some n := by simpa [effectiveSize, hi] using heff
      subst ho
      simp [sfcTry, hnle, hi, dedup_not_mem_streamPhase]

/-- Claim C6: for a general-path transfer into the xet backend (source
not xet, destination not the protected marker), when the effective size
(the explicit hint, else the freshly queried source size) is at least
50000000 the deduplication-hint preparation is invoked on the
destination path and it precedes every open-for-write of the
destination; when the effective size is below 50000000 it is never
invoked. -/
theorem c6_dedup_threshold (srcProto srcPath destPath : Str)
    (sizeHint : Option Nat) (env : SfcEnv)
    (hsx : srcProto ≠ str "xet")
    (hg : lastSegment destPath ≠ str ".gitattributes") :
    (∀ n, effectiveSize sizeHint env = some n → 50000000 ≤ n →
        SEv.dedupHints destPath
          ∈ (single_file_copy srcProto (str "xet") srcPath destPath sizeHint env).1 ∧
        Precedes (SEv.dedupHints destPath) (SEv.openWrite destPath)
          (single_file_copy srcProto (str "xet") srcPath destPath sizeHint env).1) ∧
    (∀ n, effectiveSize sizeHint env = some n → n < 50000000 →
        SEv.dedupHints destPath
          ∉ (single_file_copy srcProto (str "xet") srcPath destPath sizeHint env).1) := by
  have hne : ¬ (srcProto = str "xet" ∧ str "xet" = str "xet") := fun hc => hsx hc.1
  have hdo : SEv.dedupHints destPath ≠ SEv.openWrite destPath :=
    fun hcon => SEv.noConfusion hcon
  have hpo : ∀ m : Str, SEv.printed m ≠ SEv.openWrite destPath :=
    fun m hcon => SEv.noConfusion hcon
  have hio : SEv.infoQuery srcPath ≠ SEv.openWrite destPath :=
    fun hcon => SEv.noConfusion hcon
  constructor
  · intro n heff h50
    obtain ⟨rest, hca⟩ := sfcTry_big srcPath destPath sizeHint env n heff h50
    unfold single_file_copy
    rw [if_neg hg, if_neg hne]
    rcases hr : sfcTry (str "xet") srcPath destPath sizeHint env with ⟨evs, r⟩
    rw [hr] at hca
    dsimp only at hca
    cases r with
    | ok u =>
      dsimp only
      rcases hca with hca | hca <;> rw [hca] <;> constructor
      · simp
      · exact precedes_cons (hpo _) (precedes_head hdo)
      · simp
      · exact precedes_cons (hpo _) (precedes_cons hio (precedes_head hdo))
    | error e0 =>
      dsimp only
      rcases hca with hca | hca <;> rw [hca] <;> constructor
      · simp
      · simp only [List.cons_append]
        exact precedes_cons (hpo _) (precedes_head hdo)
      · simp
      · simp only [List.cons_append]
        exact precedes_cons (hpo _) (precedes_cons hio (precedes_head hdo))
  · intro n heff h50
    have hnm := sfcTry_small srcPath destPath sizeHint env n heff h50
    unfold single_file_copy
    rw [if_neg hg, if_neg hne]
    rcases hr : sfcTry (str "xet") srcPath destPath sizeHint env with ⟨evs, r⟩
    rw [hr] at hnm
    dsimp only at hnm
    cases r with
    | ok u =>
      dsimp only
      simp [hnm]
    | error e0 =>
      dsimp only
      simp [hnm]

/-- Witness for C6: a 60000000-byte hint triggers the hint preparation,
a 1000-byte hint does not. -/
theorem c6_witness :
    SEv.dedupHints (str "u/r/b/big")
      ∈ (single_file_copy (str "s3") (str "xet") (str "bucket/big")
          (str "u/r/b/big") (some 60000000) envAllOk).1 ∧
    SEv.dedupHints (str "u/r/b/big")
      ∉ (single_file_copy (str "s3") (str "xet") (str "bucket/big")
          (str "u/r/b/big") (some 1000) envAllOk).1 := by
  constructor
  · exact ((c6_dedup_threshold (str "s3") (str "bucket/big") (str "u/r/b/big")
      (some 60000000) envAllOk (by decide) (by decide)).1
      60000000 (by decide) (by decide)).1
  · exact (c6_dedup_threshold (str "s3") (str "bucket/big") (str "u/r/b/big")
      (some 1000) envAllOk (by decide) (by decide)).2
      1000 (by decide) (by decide)

/-- Claim C1 evaluated on a failing input: moving from an s3 URI to a
xet URI, the trace shows the cross-protocol error being reported and
then, contrary to the report and to the claim, a transaction opened and
the backend move call issued — the move is not aborted and the mutation
is attempted on the destination backend. -/
theorem c1_cross_backend_move_not_aborted :
    mvOp id (str "s3://bkt/a") (str "xet://u/r/b") false []
        ⟨.ok (), .ok (), .ok ()⟩
      = [MEv.printedErr mvCrossMsg,
         MEv.startTxn (str "move s3://bkt/a to xet://u/r/b"),
         MEv.mvCall (str "bkt/a") (str "u/r/b"),
         MEv.endTxn] := by
  decide

theorem validate_events_not_walk (srcProto destProto srcPath destPath : Str)
    (env : CopyEnv) :
    ∀ ev ∈ (validate_xet_copy srcProto destProto srcPath destPath env).1,
      isWalkEvent ev = false := by
  unfold validate_xet_copy
  by_cases h1 : srcProto = str "xet"
  · cases hbr : env.srcBranchInfo with
    | error e =>
      rw [if_pos h1]
      intro ev hev
      simp at hev
      subst hev
      rfl
    | ok u =>
      rw [if_pos h1]
      dsimp only
      by_cases h2 : destProto = str "xet"
      · rw [if_pos h2]
        by_cases h3 : srcProto = str "xet" ∧ env.srcParsePathEmpty = true
            ∧ env.destParsePathEmpty = true
        · rw [if_pos h3]
          intro ev hev
          simp at hev
          subst hev
          rfl
        · rw [if_neg h3]
          intro ev hev
          simp at hev
          rcases hev with hev | hev <;> subst hev <;> rfl
      · rw [if_neg h2]
        intro ev hev
        simp at hev
        subst hev
        rfl
  · rw [if_neg h1]
    dsimp only
    by_cases h2 : destProto = str "xet"
    · rw [if_pos h2]
      by_cases h3 : srcProto = str "xet" ∧ env.srcParsePathEmpty = true
          ∧ env.destParsePathEmpty = true
      · exact absurd h3.1 h1
      · rw [if_neg h3]
        intro ev hev
        simp at hev
        subst hev
        rfl
    · rw [if_neg h2]
      intro ev hev
      simp at hev

/-- Claim C3 counterexample: with a wildcard in a non-final segment,
the copy fails with the invalid-glob error, but only after the source
directory query has already been issued to the source backend — the
trace is not free of backend I/O when the error is raised. -/
theorem c3_counterexample :
    copyOp id (str "s3://d/*/x") (str "s3://o") true
        ⟨.ok (), .ok (), false, false, false, [], []⟩
      = ([CEv.isdirQuery (str "d/*/x")],
         .error (str "Invalid glob s3://d/*/x. Wildcards can only appear in the last position")) := by
  decide

/-- Claim C3 amended: a wildcard outside the final segment of the
normalized source path makes the copy fail with the invalid-glob error
before any enumeration, directory creation, transfer or native copy is
issued — but after pre-flight validation (branch checks) and the source
directory query, which do reach the backends. -/
theorem c3_amended (abspath : Str → Str) (source destination : Str)
    (recursive : Bool) (env : CopyEnv)
    (hv : (validate_xet_copy (get_fs_and_path abspath source).2.protocol
            (get_fs_and_path abspath destination).2.protocol
            (get_fs_and_path abspath source).2.path
            (get_fs_and_path abspath destination).2.path env).2 = Except.ok ())
    (hw : (normSlash (get_fs_and_path abspath source).2.path).contains '*' = true)
    (hw2 : (parentJoin (normSlash (get_fs_and_path abspath source).2.path)).contains '*'
      = true) :
    (copyOp abspath source destination recursive env).2
      = Except.error (str "Invalid glob " ++ source ++
          str ". Wildcards can only appear in the last position") ∧
    ∀ ev ∈ (copyOp abspath source destination recursive env).1,
      isWalkEvent ev = false := by
  rcases hval : validate_xet_copy (get_fs_and_path abspath source).2.protocol
      (get_fs_and_path abspath destination).2.protocol
      (get_fs_and_path abspath source).2.path
      (get_fs_and_path abspath destination).2.path env with ⟨ve, vr⟩
  rw [hval] at hv
  dsimp only at hv
  subst hv
  have hv1 : ∀ ev ∈ ve, isWalkEvent ev = false := by
    have h0 := validate_events_not_walk (get_fs_and_path abspath source).2.protocol
      (get_fs_and_path abspath destination).2.protocol
      (get_fs_and_path abspath source).2.path
      (get_fs_and_path abspath destination).2.path env
    rw [hval] at h0
    exact h0
  have hcopy : copyOp abspath source destination recursive env
      = (((get_fs_and_path abspath source).1
            ++ (get_fs_and_path abspath destination).1).map CEv.printed
          ++ ve
          ++ [CEv.isdirQuery (normSlash (get_fs_and_path abspath source).2.path)],
         Except.error (str "Invalid glob " ++ source ++
           str ". Wildcards can only appear in the last position")) := by
    unfold copyOp
    dsimp only
    rw [hval]
    dsimp only
    rw [if_pos hw, if_pos hw2]
  rw [hcopy]
  refine ⟨rfl, ?_⟩
  intro ev hev
  dsimp only at hev
  rcases List.mem_append.1 hev with hev | hev
  · rcases List.mem_append.1 hev with hev | hev
    · obtain ⟨m, hm, hevm⟩ := List.mem_map.1 hev
      rw [← hevm]
      rfl
    · exact hv1 ev hev
  · simp at hev
    subst hev
    rfl

/-- Witness for the C3 amended theorem at a concrete wildcard-misplaced
source. -/
theorem c3_amended_witness :
    (copyOp id (str "s3://d/*/x") (str "s3://o2") true
        ⟨.ok (), .ok (), false, false, false, [], []⟩).2
      = Except.error (str "Invalid glob " ++ str "s3://d/*/x" ++
          str ". Wildcards can only appear in the last position") :=
  (c3_amended id (str "s3://d/*/x") (str "s3://o2") true
    ⟨.ok (), .ok (), false, false, false, [], []⟩
    (by decide) (by decide) (by decide)).1

theorem runFindLoop_transfer_src (sp dp : Str) (rec : Bool)
    (entries : List (Str × EInfo)) (p d : Str) (s : Option Nat)
    (hm : CEv.transfer p d s ∈ (runFindLoop sp dp rec entries).1) :
    p ∈ entries.map Prod.fst := by
  induction entries with
  | nil => simp [runFindLoop] at hm
  | cons e rest ih =>
    rcases e with ⟨q, j⟩
    simp only [runFindLoop] at hm
    rw [List.map_cons]
    by_cases hskip : j.typ = EType.directory ∧ rec = false
    · rw [if_pos hskip] at hm
      exact List.mem_cons_of_mem _ (ih hm)
    · rw [if_neg hskip] at hm
      cases hlt : ltrim_match q sp with
      | error e2 =>
        rw [hlt] at hm
        simp at hm
      | ok r =>
        rw [hlt] at hm
        rcases hrec : runFindLoop sp dp rec rest with ⟨re, rr⟩
        rw [hrec] at hm
        dsimp only at hm
        rcases List.mem_cons.1 hm with hm | hm
        · exact absurd hm (by simp)
        · rcases List.mem_cons.1 hm with hm | hm
          · injection hm with h1 h2 h3
            rw [h1]
            exact List.mem_cons_self _ _
          · refine List.mem_cons_of_mem _ (ih ?_)
            rw [hrec]
            exact hm

theorem runFindLoop_dir_skipped (sp dp p d : Str) (s : Option Nat) (info : EInfo)
    (hdir : info.typ = EType.directory) :
    ∀ entries : List (Str × EInfo), (entries.map Prod.fst).Nodup →
      (p, info) ∈ entries →
      CEv.transfer p d s ∉ (runFindLoop sp dp false entries).1 := by
  intro entries
  induction entries with
  | nil =>
    intro _ hmem
    simp at hmem
  | cons e rest ih =>
    intro hnd hmem
    rcases e with ⟨q, j⟩
    rw [List.map_cons, List.nodup_cons] at hnd
    simp only [runFindLoop]
    rcases List.mem_cons.1 hmem with hmem | hmem
    · rw [Prod.mk.injEq] at hmem
      obtain ⟨hpq, hij⟩ := hmem
      subst hpq
      subst hij
      rw [if_pos ⟨hdir, True.intro⟩]
      intro hmm
      exact hnd.1 (runFindLoop_transfer_src sp dp false rest p d s hmm)
    · by_cases hjd : j.typ = EType.directory
      · rw [if_pos ⟨hjd, True.intro⟩]
        exact ih hnd.2 hmem
      · rw [if_neg (fun hc => hjd hc.1)]
        cases hlt : ltrim_match q sp with
        | error e2 => simp
        | ok r =>
          rcases hrec : runFindLoop sp dp false rest with ⟨re, rr⟩
          dsimp only
          intro hmm
          rcases List.mem_cons.1 hmm with hmm | hmm
          · exact absurd hmm (by simp)
          · rcases List.mem_cons.1 hmm with hmm | hmm
            · injection hmm with h1 h2 h3
              have hp : p ∈ List.map Prod.fst rest :=
                List.mem_map_of_mem Prod.fst hmem
              exact hnd.1 (h1 ▸ hp)
            · refine ih hnd.2 hmem ?_
              rw [hrec]
              exact hmm

theorem runFindLoop_file_dispatched (sp dp : Str) :
    ∀ entries : List (Str × EInfo),
      (∀ q j, (q, j) ∈ entries → j.typ ≠ EType.directory →
        exceptIsOk (ltrim_match q sp) = true) →
      ∀ p info r, (p, info) ∈ entries → info.typ ≠ EType.directory →
        ltrim_match p sp = Except.ok r →
        CEv.transfer p (destFor dp (lstripChar '/' r)) info.size
          ∈ (runFindLoop sp dp false entries).1 := by
  intro entries
  induction entries with
  | nil =>
    intro _ p info r hmem
    simp at hmem
  | cons e rest ih =>
    intro hall p info r hmem hnotdir hlt
    rcases e with ⟨q, j⟩
    simp only [runFindLoop]
    rcases List.mem_cons.1 hmem with hmem | hmem
    · rw [Prod.mk.injEq] at hmem
      obtain ⟨hpq, hij⟩ := hmem
      subst hpq
      subst hij
      rw [if_neg (fun hc => hnotdir hc.1), hlt]
      rcases hrec : runFindLoop sp dp false rest with ⟨re, rr⟩
      dsimp only
      exact List.mem_cons_of_mem _ (List.mem_cons_self _ _)
    · have hmem2 : CEv.transfer p (destFor dp (lstripChar '/' r)) info.size
          ∈ (runFindLoop sp dp false rest).1 :=
        ih (fun q2 j2 hq hj => hall q2 j2 (List.mem_cons_of_mem _ hq) hj)
          p info r hmem hnotdir hlt
      by_cases hjd2 : j.typ = EType.directory
      · rw [if_pos ⟨hjd2, True.intro⟩]
        exact hmem2
      · rw [if_neg (fun hc => hjd2 hc.1)]
        have hjd : j.typ ≠ EType.directory := hjd2
        have hqok := hall q j (List.mem_cons_self _ _) hjd
        cases hlt2 : ltrim_match q sp with
        | error e2 =>
          rw [hlt2] at hqok
          exact absurd hqok (by simp [exceptIsOk])
        | ok r2 =>
          dsimp only
          exact List.mem_cons_of_mem _ (List.mem_cons_of_mem _ hmem2)

theorem copyOp_dir_mode (abspath : Str → Str) (source destination : Str)
    (recursive : Bool) (env : CopyEnv) (ve : List CEv)
    (hval : validate_xet_copy (get_fs_and_path abspath source).2.protocol
        (get_fs_and_path abspath destination).2.protocol
        (get_fs_and_path abspath source).2.path
        (get_fs_and_path abspath destination).2.path env = (ve, Except.ok ()))
    (hw : (normSlash (get_fs_and_path abspath source).2.path).contains '*' = false)
    (hd : env.srcIsdir = true)
    (hx : ¬ ((get_fs_and_path abspath source).2.protocol = str "xet" ∧
             (get_fs_and_path abspath destination).2.protocol = str "xet")) :
    copyOp abspath source destination recursive env
      = (((get_fs_and_path abspath source).1
            ++ (get_fs_and_path abspath destination).1).map CEv.printed
          ++ ve
          ++ [CEv.isdirQuery (normSlash (get_fs_and_path abspath source).2.path)]
          ++ CEv.findQuery (normSlash (get_fs_and_path abspath source).2.path)
            :: (runFindLoop (normSlash (get_fs_and_path abspath source).2.path)
                 (normSlash (get_fs_and_path abspath destination).2.path)
                 recursive env.findEntries).1,
         (runFindLoop (normSlash (get_fs_and_path abspath source).2.path)
           (normSlash (get_fs_and_path abspath destination).2.path)
           recursive env.findEntries).2) := by
  unfold copyOp
  dsimp only
  rw [hval]
  dsimp only
  rw [if_neg (fun hc => by rw [hw] at hc; exact Bool.noConfusion hc),
    if_pos hd, if_neg hx]

/-- Claim C2 counterexample: copying the directory s3://data with
recursive=false, whose enumeration holds a single file entry, still
creates the destination directory and dispatches a single-item transfer
for that file — entries are copied and writes are performed. -/
theorem c2_counterexample :
    copyOp id (str "s3://data") (str "s3://out") false
        ⟨.ok (), .ok (), false, false, true, [],
         [(str "data/f.txt", ⟨EType.file, some 5⟩)]⟩
      = ([CEv.isdirQuery (str "data"), CEv.findQuery (str "data"),
          CEv.makedirs (str "out"),
          CEv.transfer (str "data/f.txt") (str "out/f.txt") (some 5)],
         .ok ()) := by
  decide

/-- Claim C2 amended: copying a directory with recursive=false skips
only the directory-typed entries of the enumeration (no transfer is
dispatched for them), but every non-directory entry still gets a
single-item transfer dispatched (with destination directory creation),
so entries are still copied. -/
theorem c2_amended (abspath : Str → Str) (source destination : Str)
    (env : CopyEnv) (ve : List CEv)
    (hval : validate_xet_copy (get_fs_and_path abspath source).2.protocol
        (get_fs_and_path abspath destination).2.protocol
        (get_fs_and_path abspath source).2.path
        (get_fs_and_path abspath destination).2.path env = (ve, Except.ok ()))
    (hw : (normSlash (get_fs_and_path abspath source).2.path).contains '*' = false)
    (hd : env.srcIsdir = true)
    (hx : ¬ ((get_fs_and_path abspath source).2.protocol = str "xet" ∧
             (get_fs_and_path abspath destination).2.protocol = str "xet"))
    (hnd : (env.findEntries.map Prod.fst).Nodup) :
    (∀ p info, (p, info) ∈ env.findEntries → info.typ = EType.directory →
        ∀ d s, CEv.transfer p d s
          ∉ (copyOp abspath source destination false env).1) ∧
    (∀ p info r, (p, info) ∈ env.findEntries → info.typ ≠ EType.directory →
        (∀ x ∈ env.findEntries, x.2.typ ≠ EType.directory →
          exceptIsOk (ltrim_match x.1
            (normSlash (get_fs_and_path abspath source).2.path)) = true) →
        ltrim_match p (normSlash (get_fs_and_path abspath source).2.path)
          = Except.ok r →
        CEv.transfer p
            (destFor (normSlash (get_fs_and_path abspath destination).2.path)
              (lstripChar '/' r)) info.size
          ∈ (copyOp abspath source destination false env).1) := by
  have hcopy := copyOp_dir_mode abspath source destination false env ve hval hw hd hx
  have hv1 : ∀ ev ∈ ve, isWalkEvent ev = false := by
    have h0 := validate_events_not_walk (get_fs_and_path abspath source).2.protocol
      (get_fs_and_path abspath destination).2.protocol
      (get_fs_and_path abspath source).2.path
      (get_fs_and_path abspath destination).2.path env
    rw [hval] at h0
    exact h0
  constructor
  · intro p info hmem hdir d s
    rw [hcopy]
    dsimp only
    intro hin
    rcases List.mem_append.1 hin with hin | hin
    · rcases List.mem_append.1 hin with hin | hin
      · rcases List.mem_append.1 hin with hin | hin
        · obtain ⟨m, _, hm⟩ := List.mem_map.1 hin
          exact CEv.noConfusion hm
        · simpa [isWalkEvent] using hv1 _ hin
      · simp at hin
    · rcases List.mem_cons.1 hin with hin | hin
      · exact CEv.noConfusion hin
      · exact runFindLoop_dir_skipped
          (normSlash (get_fs_and_path abspath source).2.path)
          (normSlash (get_fs_and_path abspath destination).2.path)
          p d s info hdir env.findEntries hnd hmem hin
  · intro p info r hmem hnotdir hall hlt
    rw [hcopy]
    dsimp only
    refine List.mem_append_right _ (List.mem_cons_of_mem _ ?_)
    exact runFindLoop_file_dispatched
      (normSlash (get_fs_and_path abspath source).2.path)
      (normSlash (get_fs_and_path abspath destination).2.path)
      env.findEntries (fun q j hq hj => hall (q, j) hq hj)
      p info r hmem hnotdir hlt

/-- Witness for the C2 amended theorem: the file entry under the
directory source is dispatched even though recursive is false. -/
theorem c2_amended_witness :
    CEv.transfer (str "data/f.txt")
        (destFor (normSlash (get_fs_and_path id (str "s3://out2")).2.path)
          (lstripChar '/' (str "/f.txt"))) (some 5)
      ∈ (copyOp id (str "s3://data") (str "s3://out2") false
          ⟨.ok (), .ok (), false, false, true, [],
           [(str "data/f.txt", ⟨EType.file, some 5⟩)]⟩).1 :=
  (c2_amended id (str "s3://data") (str "s3://out2")
    ⟨.ok (), .ok (), false, false, true, [],
     [(str "data/f.txt", ⟨EType.file, some 5⟩)]⟩
    [] (by decide) (by decide) rfl (by decide) (by decide)).2
    (str "data/f.txt") ⟨EType.file, some 5⟩ (str "/f.txt")
    (by decide) (by decide) (by decide) (by decide)

theorem rmLoop_all_ok (rmr : Str → Except Str Unit) (paths : List Str)
    (h : ∀ p ∈ paths, rmr p = .ok ()) :
    rmLoop rmr paths = (paths.map RmEv.rmCall, .ok ()) := by
  induction paths with
  | nil => rfl
  | cons p rest ih =>
    have hp := h p (List.mem_cons_self p rest)
    have ih2 := ih (fun q hq => h q (List.mem_cons_of_mem p hq))
    simp only [rmLoop, hp, ih2, List.map_cons]

/-- Claim C8: on the xet backend, a delete whose requests include a
branch root (empty in-branch path, non-empty branch) only reports the
refusal — no transaction is opened and no removal is issued; a delete
of non-branch paths with all calls succeeding opens exactly one
transaction, removes every requested path inside it, and closes it. -/
theorem c8_rm_branch_guard (abspath : Str → Str) (paths : List Str)
    (message : Str) (env : RmEnv)
    (hx : (get_fs_and_path abspath (paths.headD [])).2.protocol = str "xet") :
    ((∃ p ∈ paths, isBranchRoot (env.parse p)) →
        rmOp abspath paths message env = [RmEv.printedErr rmBranchMsg]) ∧
    ((∀ p ∈ paths, ¬ isBranchRoot (env.parse p)) →
        (∀ p ∈ paths, env.rmResult p = .ok ()) →
        env.startResult = .ok () → env.endResult = .ok () →
        rmOp abspath paths message env
          = RmEv.startTxn (if message = [] then str "delete " ++ pyReprList paths
              else message)
            :: paths.map RmEv.rmCall ++ [RmEv.endTxn]) := by
  constructor
  · intro hex
    have hany : paths.any (fun p => decide (isBranchRoot (env.parse p))) = true := by
      rw [List.any_eq_true]
      obtain ⟨p, hp, hbr⟩ := hex
      exact ⟨p, hp, decide_eq_true hbr⟩
    unfold rmOp
    dsimp only
    rw [if_pos hx, if_pos hany]
  · intro hnone hok hs he
    have hnany : ¬ paths.any (fun p => decide (isBranchRoot (env.parse p))) = true := by
      rw [List.any_eq_true]
      rintro ⟨p, hp, hd⟩
      exact hnone p hp (of_decide_eq_true hd)
    unfold rmOp
    dsimp only
    rw [if_pos hx, if_neg hnany, hs]
    dsimp only
    rw [rmLoop_all_ok env.rmResult paths hok]
    dsimp only
    rw [he]

/-- Witness for C8: two non-branch xet paths are deleted inside a
single transaction bracket. -/
theorem c8_witness :
    rmOp id [str "xet://u/r/b/f1", str "xet://u/r/b/f2"] (str "cleanup") rmEnvOk
      = RmEv.startTxn (if (str "cleanup") = [] then
            str "delete " ++ pyReprList [str "xet://u/r/b/f1", str "xet://u/r/b/f2"]
          else str "cleanup")
        :: [str "xet://u/r/b/f1", str "xet://u/r/b/f2"].map RmEv.rmCall
        ++ [RmEv.endTxn] :=
  (c8_rm_branch_guard id [str "xet://u/r/b/f1", str "xet://u/r/b/f2"]
    (str "cleanup") rmEnvOk (by decide)).2
    (by decide) (fun p hp => rfl) rfl rfl

/-- Claim C10: a duplicate invoked with the public flag set, whose
attribute call succeeds, sets the destination repository attribute
named public to the value False — the repository is not made public. -/
theorem c10_public_flag_sets_false (source : Str) (optDest : Option Str)
    (priv verbose : Bool) (env : DupEnv)
    (hdup : env.duplicateResult = .ok ())
    (hpriv : priv = false ∨ env.setPrivateResult = .ok ())
    (hpub : env.setPublicResult = .ok ()) :
    DupEv.setRepoAttr (dupDest source optDest env.username) (str "public") false
      ∈ (duplicateOp source optDest priv true verbose env).1 ∧
    (∀ v, DupEv.setRepoAttr (dupDest source optDest env.username) (str "public") v
        ∈ (duplicateOp source optDest priv true verbose env).1 → v = false) := by
  have hpp : str "public" ≠ str "private" := by decide
  cases priv with
  | false =>
    unfold duplicateOp
    rw [hdup]
    dsimp only
    rw [hpub]
    dsimp only
    constructor
    · simp
    · intro v hv
      simp [hpp] at hv
      exact hv
  | true =>
    have hpok : env.setPrivateResult = .ok () := hpriv.resolve_left (by simp)
    unfold duplicateOp
    rw [hdup]
    dsimp only
    rw [hpok]
    dsimp only
    rw [hpub]
    dsimp only
    constructor
    · simp
    · intro v hv
      simp [hpp] at hv
      exact hv

/-- Witness for C10: with the public flag set and all calls succeeding,
the trace contains the attribute call setting public to False. -/
theorem c10_witness :
    DupEv.setRepoAttr (dupDest (str "xet://u/repo") (some (str "xet://alice/repo2"))
        dupEnvOk.username) (str "public") false
      ∈ (duplicateOp (str "xet://u/repo") (some (str "xet://alice/repo2"))
          false true false dupEnvOk).1 :=
  (c10_public_flag_sets_false (str "xet://u/repo") (some (str "xet://alice/repo2"))
    false false dupEnvOk rfl (Or.inl rfl) rfl).1

end Pyxet
